import Mathlib

/-!
Verification development for the caching / request-coalescing core of the
repository: `src/utils/rcache.py` (hard-TTL budgeted cache, `cached_fetch`)
and `src/cache_ttl.py` (write-through coalescing cache and
stale-while-revalidate).  Python values that flow through the cache are JSON
values; Python `None` and JSON `null` are one and the same runtime object, so
they are modelled by a single constructor `JVal.null`.
-/

set_option maxRecDepth 200000

/-- JSON values as handled by `json.dumps` / `json.loads`.  Numbers are
modelled as unbounded integers (Python ints); objects as association lists in
insertion order (a Python dict never holds a duplicate key). -/
inductive JVal where
  | null : JVal
  | bool : Bool → JVal
  | num : Int → JVal
  | str : String → JVal
  | arr : List JVal → JVal
  | obj : List (String × JVal) → JVal

mutual

def decEqJ : (a b : JVal) → Decidable (a = b)
  | .null, .null => isTrue rfl
  | .bool x, .bool y =>
    match decEq x y with
    | isTrue h => isTrue (h ▸ rfl)
    | isFalse h => isFalse (fun hh => h (by cases hh; rfl))
  | .num x, .num y =>
    match decEq x y with
    | isTrue h => isTrue (h ▸ rfl)
    | isFalse h => isFalse (fun hh => h (by cases hh; rfl))
  | .str x, .str y =>
    match decEq x y with
    | isTrue h => isTrue (h ▸ rfl)
    | isFalse h => isFalse (fun hh => h (by cases hh; rfl))
  | .arr xs, .arr ys =>
    match decEqJL xs ys with
    | isTrue h => isTrue (h ▸ rfl)
    | isFalse h => isFalse (fun hh => h (by cases hh; rfl))
  | .obj xs, .obj ys =>
    match decEqJP xs ys with
    | isTrue h => isTrue (h ▸ rfl)
    | isFalse h => isFalse (fun hh => h (by cases hh; rfl))
  | .null, .bool _ | .null, .num _ | .null, .str _ | .null, .arr _ | .null, .obj _
  | .bool _, .null | .bool _, .num _ | .bool _, .str _ | .bool _, .arr _ | .bool _, .obj _
  | .num _, .null | .num _, .bool _ | .num _, .str _ | .num _, .arr _ | .num _, .obj _
  | .str _, .null | .str _, .bool _ | .str _, .num _ | .str _, .arr _ | .str _, .obj _
  | .arr _, .null | .arr _, .bool _ | .arr _, .num _ | .arr _, .str _ | .arr _, .obj _
  | .obj _, .null | .obj _, .bool _ | .obj _, .num _ | .obj _, .str _ | .obj _, .arr _ =>
    isFalse (by intro h; exact JVal.noConfusion h)

def decEqJL : (a b : List JVal) → Decidable (a = b)
  | [], [] => isTrue rfl
  | [], _ :: _ => isFalse (by intro h; exact List.noConfusion h)
  | _ :: _, [] => isFalse (by intro h; exact List.noConfusion h)
  | x :: xs, y :: ys =>
    match decEqJ x y, decEqJL xs ys with
    | isTrue h1, isTrue h2 => isTrue (h1 ▸ h2 ▸ rfl)
    | isFalse h1, _ => isFalse (fun hh => h1 (by cases hh; rfl))
    | _, isFalse h2 => isFalse (fun hh => h2 (by cases hh; rfl))

def decEqJP : (a b : List (String × JVal)) → Decidable (a = b)
  | [], [] => isTrue rfl
  | [], _ :: _ => isFalse (by intro h; exact List.noConfusion h)
  | _ :: _, [] => isFalse (by intro h; exact List.noConfusion h)
  | (k1, v1) :: xs, (k2, v2) :: ys =>
    match decEq k1 k2, decEqJ v1 v2, decEqJP xs ys with
    | isTrue h0, isTrue h1, isTrue h2 => isTrue (h0 ▸ h1 ▸ h2 ▸ rfl)
    | isFalse h0, _, _ => isFalse (fun hh => h0 (by cases hh; rfl))
    | _, isFalse h1, _ => isFalse (fun hh => h1 (by cases hh; rfl))
    | _, _, isFalse h2 => isFalse (fun hh => h2 (by cases hh; rfl))

end

instance : DecidableEq JVal := decEqJ

/-- Equality of call outcomes (returned value or raised exception) is
decidable. -/
def decEqExcept {ε α : Type} [DecidableEq ε] [DecidableEq α] :
    (a b : Except ε α) → Decidable (a = b)
  | .ok x, .ok y =>
    match decEq x y with
    | isTrue h => isTrue (h ▸ rfl)
    | isFalse h => isFalse (fun hh => h (by cases hh; rfl))
  | .error e, .error f =>
    match decEq e f with
    | isTrue h => isTrue (h ▸ rfl)
    | isFalse h => isFalse (fun hh => h (by cases hh; rfl))
  | .ok _, .error _ => isFalse (by intro h; exact Except.noConfusion h)
  | .error _, .ok _ => isFalse (by intro h; exact Except.noConfusion h)

instance {ε α : Type} [DecidableEq ε] [DecidableEq α] : DecidableEq (Except ε α) :=
  decEqExcept

/-- Python truthiness on JSON values: `None`, `False`, `0`, `""`, `[]`, `{}`
are falsy, everything else truthy. -/
def jFalsy : JVal → Bool
  | .null => true
  | .bool b => !b
  | .num n => n == 0
  | .str s => s == ""
  | .arr xs => xs.isEmpty
  | .obj kvs => kvs.isEmpty

/-- `dict.get(k)` on an association list: first binding wins (a real dict has
unique keys, so this is exact). -/
def lookupJ (k : String) : List (String × JVal) → Option JVal
  | [] => none
  | (k2, v) :: rest => if k2 = k then some v else lookupJ k rest

/-- Python `int(...)` as applied to the values the budget counter can hold:
identity on ints, `True`/`False` map to 1/0.  Other shapes would raise in
Python and are never written by the counter; they default to 0 here. -/
def pyInt : JVal → Int
  | .num n => n
  | .bool b => if b then 1 else 0
  | _ => 0

/-- Lowercase hexadecimal digit. -/
def hexChar (n : Nat) : Char :=
  if n < 10 then Char.ofNat (48 + n) else Char.ofNat (87 + n)

/-- Four-digit lowercase hex rendering used by JSON escapes. -/
def hexU4 (n : Nat) : String :=
  String.mk [hexChar (n / 4096 % 16), hexChar (n / 256 % 16),
             hexChar (n / 16 % 16), hexChar (n % 16)]

/-- `json.dumps` escaping of one character with the default
`ensure_ascii=True`: printable ASCII other than quote and backslash is kept,
everything else is escaped (short escapes for the usual controls, otherwise
a 4-digit unicode escape, surrogate pairs above the BMP). -/
def escChar (c : Char) : String :=
  if c = Char.ofNat 34 then String.mk [Char.ofNat 92, Char.ofNat 34]
  else if c = Char.ofNat 92 then String.mk [Char.ofNat 92, Char.ofNat 92]
  else if c.toNat = 10 then String.mk [Char.ofNat 92, Char.ofNat 110]
  else if c.toNat = 9 then String.mk [Char.ofNat 92, Char.ofNat 116]
  else if c.toNat = 13 then String.mk [Char.ofNat 92, Char.ofNat 114]
  else if c.toNat = 8 then String.mk [Char.ofNat 92, Char.ofNat 98]
  else if c.toNat = 12 then String.mk [Char.ofNat 92, Char.ofNat 102]
  else if 32 ≤ c.toNat ∧ c.toNat ≤ 126 then String.mk [c]
  else if c.toNat < 65536 then String.mk [Char.ofNat 92, Char.ofNat 117] ++ hexU4 c.toNat
  else
    let v := c.toNat - 65536
    String.mk [Char.ofNat 92, Char.ofNat 117] ++ hexU4 (55296 + v / 1024) ++
      String.mk [Char.ofNat 92, Char.ofNat 117] ++ hexU4 (56320 + v % 1024)

/-- A JSON string literal: quote, escaped characters, quote. -/
def strLit (s : String) : String :=
  String.mk [Char.ofNat 34] ++ String.join (s.data.map escChar) ++ String.mk [Char.ofNat 34]

/-- Order on rendered object entries used by `sort_keys=True`: compare the
(original) keys lexicographically. -/
def keyLe (a b : String × String) : Prop := a.1 ≤ b.1

instance : DecidableRel keyLe := fun a b => inferInstanceAs (Decidable (a.1 ≤ b.1))

/-- The key sort of `json.dumps(..., sort_keys=True)`.  Python uses a stable
sort; on the unique keys of a dict every correct sort agrees, so insertion
sort is used here. -/
def sortPairs (l : List (String × String)) : List (String × String) :=
  List.insertionSort keyLe l

/-- Render one `key: value` member of an object. -/
def renderPair (p : String × String) : String :=
  strLit p.1 ++ ": " ++ p.2

mutual

/-- `json.dumps(v, sort_keys=True)` with the default separators.  Object
members are rendered and then sorted by key; since rendering keeps each key
alongside its rendered value, this equals Python's sort-then-render. -/
def dumps : JVal → String
  | .null => "null"
  | .bool b => if b then "true" else "false"
  | .num n => toString n
  | .str s => strLit s
  | .arr xs => "[" ++ String.intercalate ", " (dumpsL xs) ++ "]"
  | .obj kvs =>
    "\x7b" ++ String.intercalate ", " ((sortPairs (dumpsP kvs)).map renderPair) ++ "\x7d"

/-- Serialize each element of an array. -/
def dumpsL : List JVal → List String
  | [] => []
  | x :: xs => dumps x :: dumpsL xs

/-- Serialize the value of each object member, keeping its key. -/
def dumpsP : List (String × JVal) → List (String × String)
  | [] => []
  | (k, v) :: xs => (k, dumps v) :: dumpsP xs

end

/-! ## MD5 (`hashlib.md5(...).hexdigest()`), over UTF-8 bytes (`str.encode()`) -/

/-- UTF-8 encoding of one code point, as a list of byte values. -/
def utf8Char (c : Char) : List Nat :=
  let n := c.toNat
  if n < 128 then [n]
  else if n < 2048 then [192 + n / 64, 128 + n % 64]
  else if n < 65536 then [224 + n / 4096, 128 + n / 64 % 64, 128 + n % 64]
  else [240 + n / 262144, 128 + n / 4096 % 64, 128 + n / 64 % 64, 128 + n % 64]

/-- `str.encode()`: UTF-8 bytes of a string. -/
def utf8Bytes (s : String) : List Nat :=
  (s.data.map utf8Char).flatten

/-- Truncation to a 32-bit machine word. -/
def m32 (x : Nat) : Nat := x % 4294967296

/-- Bitwise complement on 32-bit words. -/
def not32 (x : Nat) : Nat := 4294967295 - m32 x

/-- 32-bit left rotation. -/
def rotl32 (x s : Nat) : Nat :=
  m32 (Nat.lor (m32 x <<< s) (m32 x >>> (32 - s)))

/-- The MD5 sine-derived constant table `T[1..64]` of RFC 1321. -/
def md5K : List Nat :=
  [0xd76aa478, 0xe8c7b756, 0x242070db, 0xc1bdceee,
   0xf57c0faf, 0x4787c62a, 0xa8304613, 0xfd469501,
   0x698098d8, 0x8b44f7af, 0xffff5bb1, 0x895cd7be,
   0x6b901122, 0xfd987193, 0xa679438e, 0x49b40821,
   0xf61e2562, 0xc040b340, 0x265e5a51, 0xe9b6c7aa,
   0xd62f105d, 0x02441453, 0xd8a1e681, 0xe7d3fbc8,
   0x21e1cde6, 0xc33707d6, 0xf4d50d87, 0x455a14ed,
   0xa9e3e905, 0xfcefa3f8, 0x676f02d9, 0x8d2a4c8a,
   0xfffa3942, 0x8771f681, 0x6d9d6122, 0xfde5380c,
   0xa4beea44, 0x4bdecfa9, 0xf6bb4b60, 0xbebfbc70,
   0x289b7ec6, 0xeaa127fa, 0xd4ef3085, 0x04881d05,
   0xd9d4d039, 0xe6db99e5, 0x1fa27cf8, 0xc4ac5665,
   0xf4292244, 0x432aff97, 0xab9423a7, 0xfc93a039,
   0x655b59c3, 0x8f0ccc92, 0xffeff47d, 0x85845dd1,
   0x6fa87e4f, 0xfe2ce6e0, 0xa3014314, 0x4e0811a1,
   0xf7537e82, 0xbd3af235, 0x2ad7d2bb, 0xeb86d391]

/-- The MD5 per-round left-rotation amounts. -/
def md5S : List Nat :=
  [7, 12, 17, 22, 7, 12, 17, 22, 7, 12, 17, 22, 7, 12, 17, 22,
   5, 9, 14, 20, 5, 9, 14, 20, 5, 9, 14, 20, 5, 9, 14, 20,
   4, 11, 16, 23, 4, 11, 16, 23, 4, 11, 16, 23, 4, 11, 16, 23,
   6, 10, 15, 21, 6, 10, 15, 21, 6, 10, 15, 21, 6, 10, 15, 21]

/-- The MD5 round nonlinear function, selected by round index. -/
def md5F (i b c d : Nat) : Nat :=
  if i < 16 then Nat.lor (Nat.land b c) (Nat.land (not32 b) d)
  else if i < 32 then Nat.lor (Nat.land d b) (Nat.land (not32 d) c)
  else if i < 48 then Nat.xor b (Nat.xor c d)
  else Nat.xor c (Nat.lor b (not32 d))

/-- The MD5 message-word index for round `i`. -/
def md5G (i : Nat) : Nat :=
  if i < 16 then i
  else if i < 32 then (5 * i + 1) % 16
  else if i < 48 then (3 * i + 5) % 16
  else (7 * i) % 16

/-- One MD5 round on the state `(a, b, c, d)` with message words `M`. -/
def md5Round (M : List Nat) (st : Nat × Nat × Nat × Nat) (i : Nat) :
    Nat × Nat × Nat × Nat :=
  let (a, b, c, d) := st
  let f := m32 (md5F i b c d + a + md5K.getD i 0 + M.getD (md5G i) 0)
  (d, m32 (b + rotl32 f (md5S.getD i 0)), b, c)

/-- Process one 64-byte block (given as 16 words) into the running state. -/
def md5Block (st : Nat × Nat × Nat × Nat) (M : List Nat) : Nat × Nat × Nat × Nat :=
  let (a, b, c, d) := (List.range 64).foldl (md5Round M) st
  (m32 (st.1 + a), m32 (st.2.1 + b), m32 (st.2.2.1 + c), m32 (st.2.2.2 + d))

/-- Little-endian 8-byte rendering of the 64-bit message bit length. -/
def le64 (n : Nat) : List Nat :=
  [n % 256, n / 256 % 256, n / 65536 % 256, n / 16777216 % 256,
   n / 4294967296 % 256, n / 1099511627776 % 256,
   n / 281474976710656 % 256, n / 72057594037927936 % 256]

/-- MD5 padding: a 1-bit, zeros to 56 mod 64, then the bit length. -/
def md5Pad (msg : List Nat) : List Nat :=
  msg ++ [128] ++ List.replicate ((119 - msg.length % 64) % 64) 0 ++
    le64 (msg.length * 8 % 18446744073709551616)

/-- Split a byte list into 64-byte blocks (single pass, byte counter `n`
running 0..63 inside the current block, accumulated in reverse). -/
def chunksAux : List Nat → List Nat → Nat → List (List Nat)
  | [], acc, _ => if acc.isEmpty then [] else [acc.reverse]
  | b :: rest, acc, n =>
    if n = 63 then (acc.reverse ++ [b]) :: chunksAux rest [] 0
    else chunksAux rest (b :: acc) (n + 1)

/-- Split a byte list into 64-byte blocks. -/
def chunks64 (l : List Nat) : List (List Nat) :=
  chunksAux l [] 0

/-- Group bytes into little-endian 32-bit words. -/
def wordsOf : List Nat → List Nat
  | b0 :: b1 :: b2 :: b3 :: rest =>
    (b0 + 256 * b1 + 65536 * b2 + 16777216 * b3) :: wordsOf rest
  | _ => []

/-- The four 32-bit words of the MD5 digest of a byte sequence. -/
def md5Words (msg : List Nat) : Nat × Nat × Nat × Nat :=
  (chunks64 (md5Pad msg)).foldl (fun st blk => md5Block st (wordsOf blk))
    (0x67452301, 0xefcdab89, 0x98badcfe, 0x10325476)

/-- Little-endian bytes of one 32-bit word. -/
def le32 (w : Nat) : List Nat :=
  [w % 256, w / 256 % 256, w / 65536 % 256, w / 16777216 % 256]

/-- Two lowercase hex digits of a byte. -/
def byteHex (b : Nat) : List Char :=
  [hexChar (b / 16 % 16), hexChar (b % 16)]

/-- Lowercase hex rendering of a byte sequence. -/
def bytesHex (bs : List Nat) : String :=
  String.mk ((bs.map byteHex).flatten)

/-- `hashlib.md5(s.encode()).hexdigest()`. -/
def md5Hex (s : String) : String :=
  let (a, b, c, d) := md5Words (utf8Bytes s)
  bytesHex (le32 a ++ le32 b ++ le32 c ++ le32 d)

/-! ## Key builder and day counter key (`src/utils/rcache.py`) -/

/-- `_k(prefix, path, params)`: md5 of `path + "|" + json.dumps(params or
\x7b\x7d, sort_keys=True)`, rendered as `f"{prefix}:{h}"`.  `params` is the
parameter dict as an association list; the empty list plays the role of both
`None` and `\x7b\x7d` (they serialize identically). -/
def _k (pre path : String) (params : List (String × JVal)) : String :=
  let h := md5Hex (path ++ "|" ++ dumps (.obj params))
  pre ++ ":" ++ h

/-- `_day(prefix)`: the per-provider day-counter key
`f"{prefix}:count:{day}"`; the current `time.strftime` date is the explicit
argument `day`. -/
def _day (pre day : String) : String :=
  pre ++ ":count:" ++ day

/-! ## In-memory value store (`_mem` fallback of `src/utils/rcache.py`).
The store is the Python dict `_mem`, modelled as a map from keys to
`(expires, data)` pairs; the wall clock `time.time()` is the explicit
argument `now`. -/

/-- The `_mem` dict: key to `(expires, data)`. -/
abbrev Mem := String → Option (Option Int × JVal)

/-- `_mem[key] = v`. -/
def setF (k : String) (v : Option Int × JVal) (m : Mem) : Mem :=
  fun k2 => if k2 = k then some v else m k2

/-- `del _mem[key]`. -/
def delF (k : String) (m : Mem) : Mem :=
  fun k2 => if k2 = k then none else m k2

/-- `_get(key)` (in-memory branch): return the stored data, lazily deleting an
expired entry; a miss — and a stored JSON `null` — read back as Python `None`
(`JVal.null`).  The truthiness test `if expires and expires < time.time()`
keeps an entry whose `expires` is `None` or `0`. -/
def _get (now : Int) (key : String) (m : Mem) : JVal × Mem :=
  match m key with
  | none => (.null, m)
  | some (expires, data) =>
    match expires with
    | some e => if e ≠ 0 ∧ e < now then (.null, delF key m) else (data, m)
    | none => (data, m)

/-- `_setex(key, ttl, obj)` (in-memory branch):
`_mem[key] = (time.time() + ttl if ttl else None, obj)`. -/
def _setex (now : Int) (key : String) (ttl : Int) (obj : JVal) (m : Mem) : Mem :=
  setF key ((if ttl ≠ 0 then some (now + ttl) else none), obj) m

/-- The raw integer read of a counter entry:
`int(_mem.get(key, (None, 0))[1] if _mem.get(key) else 0)`.  Expiry is
deliberately not consulted, exactly as in the source. -/
def countOf (m : Mem) (key : String) : Int :=
  match m key with
  | some (_, v) => pyInt v
  | none => 0

/-- `budget_ok(prefix, soft_cap)`: today's count is below the cap.  The
source calls it with its default `soft_cap = 90`; the cap is kept as an
argument. -/
def budget_ok (m : Mem) (pre day : String) (softCap : Int) : Bool :=
  countOf m (_day pre day) < softCap

/-- `count_call(prefix, n)` (in-memory branch): bump today's counter and
stamp a 26-hour retention window (`60*60*26 = 93600`). -/
def count_call (now : Int) (pre day : String) (n : Int) (m : Mem) : Mem :=
  let key := _day pre day
  setF key (some (now + 93600), .num (countOf m key + n)) m

/-- Result of one `cached_fetch` call: the returned value or the propagated
exception, the final store, and how many times `fetch_fn` was invoked. -/
structure CFOut where
  result : Except String JVal
  mem : Mem
  fetchCalls : Nat

/-- `cached_fetch(prefix, path, params, fetch_fn, ttl, stale_ttl)` of
`src/utils/rcache.py` (hard-TTL mode, the spec's `fetch_with_cache`).
`fetchRes` is the behaviour of the caller-supplied `fetch_fn`: either the
value it returns or the exception it raises. -/
def cached_fetch (now : Int) (day : String) (softCap : Int) (pre path : String)
    (params : List (String × JVal)) (fetchRes : Except String JVal)
    (ttl staleTtl : Int) (m : Mem) : CFOut :=
  let freshKey := _k (pre ++ ":fresh") path params
  let staleKey := _k (pre ++ ":stale") path params
  let r1 := _get now freshKey m
  if r1.1 ≠ .null then ⟨.ok r1.1, r1.2, 0⟩
  else if !budget_ok r1.2 pre day softCap then
    let r2 := _get now staleKey r1.2
    if r2.1 ≠ .null then ⟨.ok r2.1, r2.2, 0⟩
    else ⟨.error "API budget exhausted and no cached data", r2.2, 0⟩
  else
    match fetchRes with
    | .error e => ⟨.error e, r1.2, 1⟩
    | .ok v =>
      ⟨.ok v, count_call now pre day 1
          (_setex now staleKey staleTtl v (_setex now freshKey ttl v r1.2)), 1⟩

/-! ## Redis-backed store of `src/cache_ttl.py`.
All reads and writes go through `cache_get` / `cache_set`, which serialize
with `json.dumps` / `json.loads`; since that round-trip is the identity on
JSON values, the store is modelled directly at the JSON level as a map from
keys to `(expiresAt, value)`.  A missing key, an expired key, and a stored
JSON `null` all read back as Python `None` (`JVal.null`). -/

/-- The redis keyspace seen through `cache_get`/`cache_set`. -/
abbrev RStore := String → Option (Int × JVal)

/-- `cache_get(key)`: the stored JSON value, or `None` when absent or
expired. -/
def cache_get (now : Int) (st : RStore) (key : String) : JVal :=
  match st key with
  | some (e, v) => if now < e then v else .null
  | none => .null

/-- `cache_set(key, obj, ttl_seconds)`: `SETEX` — store with expiry
`now + ttl`. -/
def cache_set (now : Int) (key : String) (ttl : Int) (v : JVal) (st : RStore) : RStore :=
  fun k2 => if k2 = key then some (now + ttl, v) else st k2

/-- The two dict hops of
`((cur or \x7b\x7d).get("meta") or \x7b\x7d)`: `none` marks the cases where
Python raises `AttributeError` (a truthy non-dict along the chain). -/
def metaOr (cur : JVal) : Option JVal :=
  let base := if jFalsy cur then JVal.obj [] else cur
  match base with
  | .obj kvs =>
    some (match lookupJ "meta" kvs with
          | some mv => if jFalsy mv then .obj [] else mv
          | none => .obj [])
  | _ => none

/-- `cached_at = ((cur or \x7b\x7d).get("meta") or \x7b\x7d).get("cached_at", 0)`
followed by its use in `now - cached_at`: the extracted integer, or `none`
where Python would raise (`AttributeError` on the dict hops, `TypeError` on
the subtraction).  A missing field defaults to `0`; a boolean is an int
subclass in Python and participates in arithmetic. -/
def cachedAtOf (cur : JVal) : Option Int :=
  match metaOr cur with
  | some (.obj kvs) =>
    match lookupJ "cached_at" kvs with
    | some (.num n) => some n
    | some (.bool b) => some (if b then 1 else 0)
    | some _ => none
    | none => some 0
  | _ => none

/-- The cached value reaches the `cached_at` default `0`: the dict hops
succeed and no `cached_at` binding exists (including the case of a falsy or
absent `meta`). -/
def noCachedAt (cur : JVal) : Bool :=
  match metaOr cur with
  | some (.obj kvs) => (lookupJ "cached_at" kvs).isNone
  | _ => false

/-- Result of one `stale_while_revalidate` call: the synchronous return (or
propagated exception), the store as left by the synchronous part, how many
times `fetch_fn` ran synchronously, and whether a background revalidation
thread was spawned. -/
structure SWROut where
  result : Except String JVal
  store : RStore
  syncCalls : Nat
  bgScheduled : Bool

/-- The synchronous-fetch tail of `stale_while_revalidate`:
`data = fetch_fn(); cache_set(key, data, hard_ttl); return data`, with any
`fetch_fn` exception propagating. -/
def swrSync (now : Int) (key : String) (hardTtl : Int)
    (fetchRes : Except String JVal) (st : RStore) : SWROut :=
  match fetchRes with
  | .ok v => ⟨.ok v, cache_set now key hardTtl v st, 1, false⟩
  | .error e => ⟨.error e, st, 1, false⟩

/-- `stale_while_revalidate(key, soft_ttl, hard_ttl, fetch_fn)` of
`src/cache_ttl.py` (the spec's `fetch_swr`).  `fetchRes` is the behaviour of
`fetch_fn` when invoked synchronously; the background thread body is
`runRevalidate` below. -/
def stale_while_revalidate (now : Int) (key : String) (softTtl hardTtl : Int)
    (fetchRes : Except String JVal) (st : RStore) : SWROut :=
  let cur := cache_get now st key
  if cur ≠ .null then
    match cachedAtOf cur with
    | none => ⟨.error "AttributeError", st, 0, false⟩
    | some ca =>
      let age := now - ca
      if age ≤ hardTtl then ⟨.ok cur, st, 0, decide (softTtl ≤ age)⟩
      else swrSync now key hardTtl fetchRes st
  else swrSync now key hardTtl fetchRes st

/-- The daemon thread body `_bg` spawned when the soft TTL was exceeded: on a
successful fetch overwrite the entry with TTL `hard_ttl`; any exception is
swallowed by the bare `except` and the store is untouched.  `bgNow` is the
(later) time at which the thread runs. -/
def runRevalidate (bgNow : Int) (key : String) (hardTtl : Int)
    (bgRes : Except String JVal) (out : SWROut) : RStore :=
  if out.bgScheduled then
    match bgRes with
    | .ok fresh => cache_set bgNow key hardTtl fresh out.store
    | .error _ => out.store
  else out.store

/-- The condition of the synchronous path of `stale_while_revalidate`: the
cached value is absent, or its extracted `cached_at` makes it older than the
hard TTL. -/
def hardExpiredOrMissing (now : Int) (key : String) (hard : Int) (st : RStore) : Bool :=
  let cur := cache_get now st key
  if cur = .null then true
  else match cachedAtOf cur with
       | some ca => decide (hard < now - ca)
       | none => false

/-! ## Two-thread interleaving semantics.
To settle the single-flight claim, `cached_fetch` is atomized into one step
per source statement and run by an explicit scheduler over two threads that
call it concurrently for the same `(provider, path, params)`.  The upstream
call `fetch_fn()` spans two steps (begin and return), so that a thread with
`pc = 3` has an upstream call in flight at that instant. -/

/-- Environment shared by both threads of one `rcache.cached_fetch` race:
the clock, the budget configuration, the derived keys, and each thread's
upstream result. -/
structure RcEnv where
  now : Int
  day : String
  softCap : Int
  pre : String
  freshKey : String
  staleKey : String
  ttl : Int
  staleTtl : Int
  fetch0 : JVal
  fetch1 : JVal

/-- Build the race environment the way `cached_fetch` opens: the two keys are
derived from `(pre, path, params)` with the `:fresh` / `:stale` namespaces. -/
def rcEnvOf (now : Int) (day : String) (softCap : Int) (pre path : String)
    (params : List (String × JVal)) (ttl staleTtl : Int) (fetch0 fetch1 : JVal) : RcEnv :=
  ⟨now, day, softCap, pre, _k (pre ++ ":fresh") path params,
   _k (pre ++ ":stale") path params, ttl, staleTtl, fetch0, fetch1⟩

/-- One thread executing `rcache.cached_fetch`: program counter and the local
variable `data`.  Program counters: 0 read fresh; 1 budget check; 2 begin
`fetch_fn()`; 3 upstream call in flight; 4 write fresh; 5 write stale;
6 bump counter; 8 read stale; 7 returned; 9 raised `RuntimeError`. -/
structure RcThread where
  pc : Nat
  acc : JVal

/-- The whole system: the shared `_mem` store, two threads, and the total
number of upstream calls started.  `rcache.cached_fetch` takes no lock, so
the system has no lock component — exactly as in the source. -/
structure RcSys where
  mem : Mem
  t0 : RcThread
  t1 : RcThread
  calls : Nat

/-- One atomic step of one thread of `rcache.cached_fetch`. -/
def rcStepT (env : RcEnv) (mem : Mem) (calls : Nat) (fetchVal : JVal)
    (t : RcThread) : Mem × Nat × RcThread :=
  match t.pc with
  | 0 => let r := _get env.now env.freshKey mem
         if r.1 ≠ .null then (r.2, calls, ⟨7, r.1⟩) else (r.2, calls, ⟨1, t.acc⟩)
  | 1 => if budget_ok mem env.pre env.day env.softCap
         then (mem, calls, ⟨2, t.acc⟩) else (mem, calls, ⟨8, t.acc⟩)
  | 2 => (mem, calls + 1, ⟨3, t.acc⟩)
  | 3 => (mem, calls, ⟨4, fetchVal⟩)
  | 4 => (_setex env.now env.freshKey env.ttl t.acc mem, calls, ⟨5, t.acc⟩)
  | 5 => (_setex env.now env.staleKey env.staleTtl t.acc mem, calls, ⟨6, t.acc⟩)
  | 6 => (count_call env.now env.pre env.day 1 mem, calls, ⟨7, t.acc⟩)
  | 8 => let r := _get env.now env.staleKey mem
         if r.1 ≠ .null then (r.2, calls, ⟨7, r.1⟩) else (r.2, calls, ⟨9, t.acc⟩)
  | _ => (mem, calls, t)

/-- Scheduler step: thread `false` or thread `true` executes one atomic
statement. -/
def rcStep (env : RcEnv) (s : RcSys) (tid : Bool) : RcSys :=
  if tid then
    let r := rcStepT env s.mem s.calls env.fetch1 s.t1
    ⟨r.1, s.t0, r.2.2, r.2.1⟩
  else
    let r := rcStepT env s.mem s.calls env.fetch0 s.t0
    ⟨r.1, r.2.2, s.t1, r.2.1⟩

/-- Run a schedule. -/
def rcRun (env : RcEnv) (s0 : RcSys) (sched : List Bool) : RcSys :=
  sched.foldl (rcStep env) s0

/-- Both threads at their entry point over a given store. -/
def rcInit (m : Mem) : RcSys :=
  ⟨m, ⟨0, .null⟩, ⟨0, .null⟩, 0⟩

/-- How many upstream calls are in flight at this instant. -/
def rcInFlight (s : RcSys) : Nat :=
  (if s.t0.pc = 3 then 1 else 0) + (if s.t1.pc = 3 then 1 else 0)

/-- Environment of one `cache_ttl.cached_fetch` race: clock, the key, the
TTL, and each thread's upstream result. -/
structure CtEnv where
  now : Int
  key : String
  ttl : Int
  fetch0 : JVal
  fetch1 : JVal

/-- One thread executing `cache_ttl.cached_fetch`.  Program counters:
0 acquire the per-key lock; 1 `cache_get` under the lock; 2 begin
`fetch_fn()`; 3 upstream call in flight; 4 `cache_set`; 5 release the lock;
6 returned. -/
structure CtThread where
  pc : Nat
  acc : JVal

/-- The whole system for `cache_ttl.cached_fetch`: shared store, the
per-key single-flight lock (`_lock_for(key)`) with its current holder, two
threads, and the number of upstream calls started. -/
structure CtSys where
  store : RStore
  lock : Option Bool
  t0 : CtThread
  t1 : CtThread
  calls : Nat

/-- Replace one thread's state. -/
def ctSetT (s : CtSys) (tid : Bool) (t : CtThread) : CtSys :=
  if tid then ⟨s.store, s.lock, s.t0, t, s.calls⟩
  else ⟨s.store, s.lock, t, s.t1, s.calls⟩

/-- One scheduler step of `cache_ttl.cached_fetch`: the chosen thread
executes its next atomic statement; a thread waiting on the lock held by the
other makes no progress. -/
def ctStep (env : CtEnv) (s : CtSys) (tid : Bool) : CtSys :=
  let t := if tid then s.t1 else s.t0
  let fv := if tid then env.fetch1 else env.fetch0
  match t.pc with
  | 0 => match s.lock with
         | none => let s2 := ctSetT s tid ⟨1, t.acc⟩
                   ⟨s2.store, some tid, s2.t0, s2.t1, s2.calls⟩
         | some _ => s
  | 1 => let hit := cache_get env.now s.store env.key
         if hit ≠ .null then ctSetT s tid ⟨5, hit⟩ else ctSetT s tid ⟨2, t.acc⟩
  | 2 => let s2 := ctSetT s tid ⟨3, t.acc⟩
         ⟨s2.store, s2.lock, s2.t0, s2.t1, s2.calls + 1⟩
  | 3 => ctSetT s tid ⟨4, fv⟩
  | 4 => let s2 := ctSetT s tid ⟨5, t.acc⟩
         ⟨cache_set env.now env.key env.ttl t.acc s2.store, s2.lock, s2.t0, s2.t1, s2.calls⟩
  | 5 => let s2 := ctSetT s tid ⟨6, t.acc⟩
         ⟨s2.store, none, s2.t0, s2.t1, s2.calls⟩
  | _ => s

/-- Run a schedule. -/
def ctRun (env : CtEnv) (s0 : CtSys) (sched : List Bool) : CtSys :=
  sched.foldl (ctStep env) s0

/-- Both threads at their entry point over a given store, lock free. -/
def ctInit (st : RStore) : CtSys :=
  ⟨st, none, ⟨0, .null⟩, ⟨0, .null⟩, 0⟩

/-- How many upstream calls are in flight at this instant. -/
def ctInFlight (s : CtSys) : Nat :=
  (if s.t0.pc = 3 then 1 else 0) + (if s.t1.pc = 3 then 1 else 0)

/-- Lock-ownership invariant of `cache_ttl.cached_fetch`: a thread anywhere
inside the `with lock:` block (pc 1–5) holds the lock. -/
def ctInv (s : CtSys) : Prop :=
  (1 ≤ s.t0.pc ∧ s.t0.pc ≤ 5 → s.lock = some false) ∧
  (1 ≤ s.t1.pc ∧ s.t1.pc ≤ 5 → s.lock = some true)

/-! ## Concrete fixtures used to evaluate the development on closed inputs -/

/-- Strict version of the key order: antisymmetric, which `keyLe` on pairs is
not. -/
def keyLt (a b : String × String) : Prop := a.1 < b.1

instance : IsAntisymm (String × String) keyLt :=
  ⟨fun _ _ h1 h2 => absurd h1 (not_lt.mpr (le_of_lt h2))⟩

instance : IsTotal (String × String) keyLe := ⟨fun a b => le_total a.1 b.1⟩

instance : IsTrans (String × String) keyLe := ⟨fun _ _ _ => le_trans⟩

/-- Fixture: an empty store. -/
def memEmpty : Mem := fun _ => none

/-- Fixture: a live fresh entry for provider `"p"`, path `"x"`, no params. -/
def memFresh : Mem :=
  fun k => if k = _k ("p" ++ ":fresh") "x" [] then some (some 100, .num 7) else none

/-- Fixture: an exhausted day budget (count 90) and a live stale entry. -/
def memStale : Mem :=
  fun k =>
    if k = _k ("p" ++ ":stale") "x" [] then some (some 1000, .num 5)
    else if k = _day "p" "d" then some (none, .num 90) else none

/-- Fixture: an exhausted day budget (count 90) and nothing else. -/
def memExhausted : Mem :=
  fun k => if k = _day "p" "d" then some (none, .num 90) else none

/-- Fixture: an empty redis keyspace. -/
def storeEmpty : RStore := fun _ => none

/-- Fixture: key `"K"` holding a payload stamped `meta.cached_at = 90`,
expiring far in the future. -/
def storeStamped : RStore :=
  fun k =>
    if k = "K" then
      some (1000000, .obj [("meta", .obj [("cached_at", .num 90)]), ("d", .num 1)])
    else none

/-- Fixture: key `"K"` holding a payload with no `meta` at all. -/
def storeBare : RStore :=
  fun k => if k = "K" then some (1000000, .obj [("d", .num 2)]) else none

/-! ## Helper lemmas -/

/-- Lists sharing a common front and then differing in their second element
are distinct. -/
theorem append_cons_cons_ne (p u v : List Char) (c x y : Char) (hxy : x ≠ y) :
    p ++ (c :: x :: u) ≠ p ++ (c :: y :: v) := by
  intro h
  have h2 := List.append_cancel_left h
  injection h2 with _ h3
  injection h3 with h4 _
  exact hxy h4

/-- The fresh cache key can never equal the day-counter key: after the
common provider text they read `:fresh:` versus `:count:`. -/
theorem freshKey_ne_dayKey (pre path : String) (params : List (String × JVal))
    (day : String) : _k (pre ++ ":fresh") path params ≠ _day pre day := by
  intro h
  have hd := congrArg String.data h
  simp only [_k, _day, String.data_append, List.append_assoc, List.cons_append,
    List.nil_append] at hd
  exact append_cons_cons_ne pre.data _ _ ':' 'f' 'c' (by decide) hd

/-- The stale cache key can never equal the day-counter key. -/
theorem staleKey_ne_dayKey (pre path : String) (params : List (String × JVal))
    (day : String) : _k (pre ++ ":stale") path params ≠ _day pre day := by
  intro h
  have hd := congrArg String.data h
  simp only [_k, _day, String.data_append, List.append_assoc, List.cons_append,
    List.nil_append] at hd
  exact append_cons_cons_ne pre.data _ _ ':' 's' 'c' (by decide) hd

/-- The fresh and stale namespaces never collide, whatever the path and
params on each side. -/
theorem freshKey_ne_staleKey (pre path path2 : String)
    (params params2 : List (String × JVal)) :
    _k (pre ++ ":fresh") path params ≠ _k (pre ++ ":stale") path2 params2 := by
  intro h
  have hd := congrArg String.data h
  simp only [_k, String.data_append, List.append_assoc, List.cons_append,
    List.nil_append] at hd
  exact append_cons_cons_ne pre.data _ _ ':' 'f' 's' (by decide) hd

/-- Two permutations of the same duplicate-free member list sort to the same
list: the key sort of `sort_keys=True` is order-insensitive. -/
theorem sortPairs_eq_of_perm (l1 l2 : List (String × String))
    (hp : l1.Perm l2) (hnd : (l1.map Prod.fst).Nodup) :
    sortPairs l1 = sortPairs l2 := by
  have hperm1 : (sortPairs l1).Perm l1 := List.perm_insertionSort keyLe l1
  have hperm2 : (sortPairs l2).Perm l2 := List.perm_insertionSort keyLe l2
  have hs1 : List.Sorted keyLe (sortPairs l1) := List.sorted_insertionSort keyLe l1
  have hs2 : List.Sorted keyLe (sortPairs l2) := List.sorted_insertionSort keyLe l2
  have hnd2 : (l2.map Prod.fst).Nodup := (hp.map Prod.fst).nodup_iff.mp hnd
  have hnds1 : ((sortPairs l1).map Prod.fst).Nodup :=
    ((hperm1.map Prod.fst).nodup_iff).mpr hnd
  have hnds2 : ((sortPairs l2).map Prod.fst).Nodup :=
    ((hperm2.map Prod.fst).nodup_iff).mpr hnd2
  have hlt1 : List.Sorted keyLt (sortPairs l1) := by
    have hne : List.Pairwise (fun a b : String × String => a.1 ≠ b.1) (sortPairs l1) :=
      (List.pairwise_map).mp hnds1
    exact (hs1.and hne).imp (fun h => lt_of_le_of_ne h.1 h.2)
  have hlt2 : List.Sorted keyLt (sortPairs l2) := by
    have hne : List.Pairwise (fun a b : String × String => a.1 ≠ b.1) (sortPairs l2) :=
      (List.pairwise_map).mp hnds2
    exact (hs2.and hne).imp (fun h => lt_of_le_of_ne h.1 h.2)
  exact List.eq_of_perm_of_sorted ((hperm1.trans hp).trans hperm2.symm) hlt1 hlt2

/-- `dumpsP` renders each value in place. -/
theorem dumpsP_eq_map (l : List (String × JVal)) :
    dumpsP l = l.map (fun p => (p.1, dumps p.2)) := by
  induction l with
  | nil => rfl
  | cons a t ih => obtain ⟨k, v⟩ := a; simp [dumpsP, ih]

/-- Rendering object members keeps the key list. -/
theorem dumpsP_fst (l : List (String × JVal)) :
    (dumpsP l).map Prod.fst = l.map Prod.fst := by
  rw [dumpsP_eq_map, List.map_map]
  rfl

/-- Serialization of an object is insensitive to the order in which its
(unique-keyed) members are supplied. -/
theorem dumps_obj_eq_of_perm (p1 p2 : List (String × JVal))
    (hp : p1.Perm p2) (hnd : (p1.map Prod.fst).Nodup) :
    dumps (.obj p1) = dumps (.obj p2) := by
  have h1 : (dumpsP p1).Perm (dumpsP p2) := by
    rw [dumpsP_eq_map, dumpsP_eq_map]; exact hp.map _
  have hnd1 : ((dumpsP p1).map Prod.fst).Nodup := by rw [dumpsP_fst]; exact hnd
  have : sortPairs (dumpsP p1) = sortPairs (dumpsP p2) :=
    sortPairs_eq_of_perm _ _ h1 hnd1
  simp [dumps, this]

/-- Looking up a key never observes a difference confined to second
components of the map: `_get`'s value only depends on the entry under the
queried key. -/
theorem fst_get_congr (now : Int) (k : String) (m1 m2 : Mem) (h : m1 k = m2 k) :
    (_get now k m1).1 = (_get now k m2).1 := by
  unfold _get
  rw [h]
  cases hm : m2 k with
  | none => rfl
  | some p =>
    obtain ⟨ex, data⟩ := p
    cases ex with
    | none => rfl
    | some e => by_cases hc : e ≠ 0 ∧ e < now <;> simp [hc]

/-- `_get` on an absent key: a miss and no mutation. -/
theorem get_of_none (now : Int) (k : String) (m : Mem) (h : m k = none) :
    _get now k m = (JVal.null, m) := by
  unfold _get; rw [h]

/-- `_get` either leaves the store untouched, or lazily deletes the
(expired) queried entry and reports a miss. -/
theorem get_characterize (now : Int) (key : String) (m : Mem) :
    (_get now key m).2 = m ∨
    ((_get now key m).2 = delF key m ∧ (_get now key m).1 = JVal.null) := by
  unfold _get
  cases hm : m key with
  | none => exact Or.inl rfl
  | some p =>
    obtain ⟨ex, data⟩ := p
    cases ex with
    | none => exact Or.inl rfl
    | some e =>
      by_cases hc : e ≠ 0 ∧ e < now
      · right; simp [hc]
      · left; simp [hc]

/-- A `_get` that observes a value does not mutate the store. -/
theorem _get_hit_mem (now : Int) (key : String) (m : Mem)
    (h : (_get now key m).1 ≠ JVal.null) : (_get now key m).2 = m := by
  rcases get_characterize now key m with h2 | ⟨_, h1⟩
  · exact h2
  · exact absurd h1 h

/-- The lazy expiry deletion done by `_get` is invisible to every subsequent
read at the same clock. -/
theorem readV_after_get (now : Int) (key k : String) (m : Mem) :
    (_get now k ((_get now key m).2)).1 = (_get now k m).1 := by
  rcases get_characterize now key m with h2 | ⟨h2, h1⟩
  · rw [h2]
  · rw [h2]
    by_cases hk : k = key
    · subst hk
      rw [h1, (get_of_none now k (delF k m) (by simp [delF]))]
    · exact fst_get_congr now k (delF key m) m (by simp [delF, hk])

/-- Deleting one key leaves other counters alone. -/
theorem countOf_delF (key ck : String) (m : Mem) (hne : ck ≠ key) :
    countOf (delF key m) ck = countOf m ck := by
  simp [countOf, delF, hne]

/-- `_get` leaves every counter under a different key alone. -/
theorem countOf_after_get (now : Int) (key ck : String) (m : Mem) (hne : ck ≠ key) :
    countOf ((_get now key m).2) ck = countOf m ck := by
  rcases get_characterize now key m with h2 | ⟨h2, _⟩
  · rw [h2]
  · rw [h2]; exact countOf_delF key ck m hne

/-- `_setex` leaves every counter under a different key alone. -/
theorem countOf_setex (now : Int) (key ck : String) (ttl : Int) (v : JVal) (m : Mem)
    (hne : ck ≠ key) : countOf (_setex now key ttl v m) ck = countOf m ck := by
  simp [countOf, _setex, setF, hne]

/-- `_setex` leaves reads at other keys alone. -/
theorem readV_setex_other (now2 now : Int) (key k : String) (ttl : Int) (v : JVal)
    (m : Mem) (hne : k ≠ key) :
    (_get now2 k (_setex now key ttl v m)).1 = (_get now2 k m).1 :=
  fst_get_congr now2 k _ m (by simp [_setex, setF, hne])

/-- `count_call` leaves reads at non-counter keys alone. -/
theorem readV_count_call (now2 now : Int) (pre day k : String) (n : Int) (m : Mem)
    (hne : k ≠ _day pre day) :
    (_get now2 k (count_call now pre day n m)).1 = (_get now2 k m).1 :=
  fst_get_congr now2 k _ m (by simp [count_call, setF, hne])

/-- `count_call` adds exactly `n` to today's counter. -/
theorem countOf_count_call (now : Int) (pre day : String) (n : Int) (m : Mem) :
    countOf (count_call now pre day n m) (_day pre day) =
      countOf m (_day pre day) + n := by
  simp [count_call, countOf, setF, pyInt]

/-- An MD5 hexdigest always has 32 hex characters (128 bits). -/
theorem md5Hex_length (s : String) : (md5Hex s).length = 32 := by
  unfold md5Hex
  rcases md5Words (utf8Bytes s) with ⟨a, b, c, d⟩
  simp [bytesHex, le32, byteHex, String.length]

/-- Reading a key whose stored data is JSON `null` yields Python `None`,
whatever the expiry: the stored null is observationally a miss. -/
theorem get_fst_of_null_entry (t : Int) (k : String) (m : Mem) (ex : Option Int)
    (h : m k = some (ex, JVal.null)) : (_get t k m).1 = JVal.null := by
  unfold _get
  rw [h]
  cases ex with
  | none => rfl
  | some e => by_cases hc : e ≠ 0 ∧ e < t <;> simp [hc]

/-- `cached_fetch`, fresh-hit path: the observed value is returned, the
store is untouched, `fetch_fn` is not called. -/
theorem cfHit (now : Int) (day : String) (softCap : Int) (pre path : String)
    (params : List (String × JVal)) (fetchRes : Except String JVal)
    (ttl staleTtl : Int) (m : Mem)
    (hnn : (_get now (_k (pre ++ ":fresh") path params) m).1 ≠ JVal.null) :
    cached_fetch now day softCap pre path params fetchRes ttl staleTtl m =
      ⟨.ok (_get now (_k (pre ++ ":fresh") path params) m).1, m, 0⟩ := by
  have hmem := _get_hit_mem now (_k (pre ++ ":fresh") path params) m hnn
  simp [cached_fetch, hnn, hmem]

/-- `cached_fetch`, budget-exhausted path: no upstream call, the stale value
(or the `RuntimeError`) comes back, every observable read and the day counter
are unchanged. -/
theorem cfExhausted (now : Int) (day : String) (softCap : Int) (pre path : String)
    (params : List (String × JVal)) (fetchRes : Except String JVal)
    (ttl staleTtl : Int) (m : Mem)
    (hfresh : (_get now (_k (pre ++ ":fresh") path params) m).1 = JVal.null)
    (hbud : ¬ countOf m (_day pre day) < softCap) :
    (cached_fetch now day softCap pre path params fetchRes ttl staleTtl m).fetchCalls = 0 ∧
    (cached_fetch now day softCap pre path params fetchRes ttl staleTtl m).result =
      (if (_get now (_k (pre ++ ":stale") path params) m).1 ≠ JVal.null
       then .ok (_get now (_k (pre ++ ":stale") path params) m).1
       else .error "API budget exhausted and no cached data") ∧
    (∀ k, (_get now k
        (cached_fetch now day softCap pre path params fetchRes ttl staleTtl m).mem).1 =
      (_get now k m).1) ∧
    countOf (cached_fetch now day softCap pre path params fetchRes ttl staleTtl m).mem
      (_day pre day) = countOf m (_day pre day) := by
  have hfk := freshKey_ne_dayKey pre path params day
  have hsk := staleKey_ne_dayKey pre path params day
  have hbud1 : budget_ok (_get now (_k (pre ++ ":fresh") path params) m).2
      pre day softCap = false := by
    have hco := countOf_after_get now (_k (pre ++ ":fresh") path params)
      (_day pre day) m (Ne.symm hfk)
    simp [budget_ok, hco, hbud]
  have hstale : (_get now (_k (pre ++ ":stale") path params)
      (_get now (_k (pre ++ ":fresh") path params) m).2).1 =
      (_get now (_k (pre ++ ":stale") path params) m).1 :=
    readV_after_get now _ _ m
  by_cases hs : (_get now (_k (pre ++ ":stale") path params) m).1 = JVal.null
  · simp only [cached_fetch, hfresh, hbud1]
    simp [hstale, hs]
    constructor
    · intro k
      rw [readV_after_get, readV_after_get]
    · rw [countOf_after_get now _ _ _ (Ne.symm hsk), countOf_after_get now _ _ _ (Ne.symm hfk)]
  · simp only [cached_fetch, hfresh, hbud1]
    simp [hstale, hs]
    constructor
    · intro k
      rw [readV_after_get, readV_after_get]
    · rw [countOf_after_get now _ _ _ (Ne.symm hsk), countOf_after_get now _ _ _ (Ne.symm hfk)]

/-- `cached_fetch`, miss path with a successful upstream call: the exact
final state — fresh write, stale write, counter bump, value returned. -/
theorem cfMissOk (now : Int) (day : String) (softCap : Int) (pre path : String)
    (params : List (String × JVal)) (v : JVal) (ttl staleTtl : Int) (m : Mem)
    (hfresh : (_get now (_k (pre ++ ":fresh") path params) m).1 = JVal.null)
    (hbud : countOf m (_day pre day) < softCap) :
    cached_fetch now day softCap pre path params (.ok v) ttl staleTtl m =
      ⟨.ok v,
       count_call now pre day 1
         (_setex now (_k (pre ++ ":stale") path params) staleTtl v
           (_setex now (_k (pre ++ ":fresh") path params) ttl v
             (_get now (_k (pre ++ ":fresh") path params) m).2)), 1⟩ := by
  have hfk := freshKey_ne_dayKey pre path params day
  have hbud1 : budget_ok (_get now (_k (pre ++ ":fresh") path params) m).2
      pre day softCap = true := by
    have hco := countOf_after_get now (_k (pre ++ ":fresh") path params)
      (_day pre day) m (Ne.symm hfk)
    simp [budget_ok, hco, hbud]
  simp [cached_fetch, hfresh, hbud1]

/-- `cached_fetch`, miss path with a failing upstream call: the exception
comes straight back and nothing was written. -/
theorem cfMissErr (now : Int) (day : String) (softCap : Int) (pre path : String)
    (params : List (String × JVal)) (e : String) (ttl staleTtl : Int) (m : Mem)
    (hfresh : (_get now (_k (pre ++ ":fresh") path params) m).1 = JVal.null)
    (hbud : countOf m (_day pre day) < softCap) :
    cached_fetch now day softCap pre path params (.error e) ttl staleTtl m =
      ⟨.error e, (_get now (_k (pre ++ ":fresh") path params) m).2, 1⟩ := by
  have hfk := freshKey_ne_dayKey pre path params day
  have hbud1 : budget_ok (_get now (_k (pre ++ ":fresh") path params) m).2
      pre day softCap = true := by
    have hco := countOf_after_get now (_k (pre ++ ":fresh") path params)
      (_day pre day) m (Ne.symm hfk)
    simp [budget_ok, hco, hbud]
  simp [cached_fetch, hfresh, hbud1]

/-- Writing a key makes it hold the written entry. -/
theorem setF_self (k : String) (v : Option Int × JVal) (m : Mem) :
    setF k v m k = some v := by
  simp [setF]

/-- Writing a key leaves every other key alone. -/
theorem setF_ne (k k2 : String) (v : Option Int × JVal) (m : Mem) (h : k2 ≠ k) :
    setF k v m k2 = m k2 := by
  simp [setF, h]

/-- `stale_while_revalidate` on a miss runs the synchronous fetch tail. -/
theorem swr_of_miss (now : Int) (key : String) (soft hard : Int)
    (fetchRes : Except String JVal) (st : RStore)
    (h : cache_get now st key = JVal.null) :
    stale_while_revalidate now key soft hard fetchRes st =
      swrSync now key hard fetchRes st := by
  simp [stale_while_revalidate, h]

/-- `stale_while_revalidate` on a hard-expired value runs the synchronous
fetch tail. -/
theorem swr_of_hard_expired (now : Int) (key : String) (soft hard ca : Int)
    (fetchRes : Except String JVal) (st : RStore)
    (hne : cache_get now st key ≠ JVal.null)
    (hca : cachedAtOf (cache_get now st key) = some ca)
    (hage : ¬ now - ca ≤ hard) :
    stale_while_revalidate now key soft hard fetchRes st =
      swrSync now key hard fetchRes st := by
  simp [stale_while_revalidate, hne, hca, hage]

/-- `stale_while_revalidate` inside the hard TTL serves the cached value
synchronously, leaves the store alone, and schedules a background refresh
exactly when the soft TTL is met. -/
theorem swr_fresh_enough (now : Int) (key : String) (soft hard ca : Int)
    (fetchRes : Except String JVal) (st : RStore)
    (hne : cache_get now st key ≠ JVal.null)
    (hca : cachedAtOf (cache_get now st key) = some ca)
    (hage : now - ca ≤ hard) :
    stale_while_revalidate now key soft hard fetchRes st =
      ⟨.ok (cache_get now st key), st, 0, decide (soft ≤ now - ca)⟩ := by
  simp [stale_while_revalidate, hne, hca, hage]

/-- When the `cached_at` lookup falls through to its default, the extracted
timestamp is `0`. -/
theorem cachedAtOf_of_noCachedAt (cur : JVal) (h : noCachedAt cur = true) :
    cachedAtOf cur = some 0 := by
  unfold noCachedAt at h
  unfold cachedAtOf
  cases hm : metaOr cur with
  | none => rw [hm] at h; simp at h
  | some mv =>
    rw [hm] at h
    cases mv with
    | obj kvs =>
      simp at h
      simp [h]
    | null => simp at h
    | bool b => simp at h
    | num n => simp at h
    | str s2 => simp at h
    | arr xs => simp at h

/-- One step of the `cache_ttl.cached_fetch` machine preserves the
lock-ownership invariant. -/
theorem ctStep_inv (env : CtEnv) (s : CtSys) (tid : Bool) (h : ctInv s) :
    ctInv (ctStep env s tid) := by
  obtain ⟨h0, h1⟩ := h
  rcases s with ⟨store, lock, ⟨pc0, a0⟩, ⟨pc1, a1⟩, calls⟩
  simp only [ctInv] at h0 h1 ⊢
  cases tid <;>
    simp only [ctStep, Bool.false_eq_true, if_false, if_true, ctSetT] <;>
    split <;> (try split) <;>
    refine ⟨fun hp => ?_, fun hp => ?_⟩ <;>
    simp_all

/-- Whole runs of the `cache_ttl.cached_fetch` machine preserve the
lock-ownership invariant. -/
theorem ctRun_inv (env : CtEnv) (sched : List Bool) (s : CtSys) (h : ctInv s) :
    ctInv (ctRun env s sched) := by
  induction sched generalizing s with
  | nil => exact h
  | cons tid rest ih => exact ih _ (ctStep_inv env s tid h)

/-- In `cache_ttl.cached_fetch`, under every interleaving of two concurrent
callers for the same key, at most one upstream call is in flight at any
instant: the in-flight program point lies inside the `with lock:` block, and
the lock has one holder. -/
theorem ct_single_flight (env : CtEnv) (st : RStore) (sched : List Bool) :
    ctInFlight (ctRun env (ctInit st) sched) ≤ 1 := by
  have hinv : ctInv (ctRun env (ctInit st) sched) :=
    ctRun_inv env sched _
      ⟨fun hp => by simp [ctInit] at hp, fun hp => by simp [ctInit] at hp⟩
  by_cases e0 : (ctRun env (ctInit st) sched).t0.pc = 3 <;>
    by_cases e1 : (ctRun env (ctInit st) sched).t1.pc = 3 <;>
    simp [ctInFlight, e0, e1]
  have ha := hinv.1 ⟨by omega, by omega⟩
  have hb := hinv.2 ⟨by omega, by omega⟩
  rw [ha] at hb
  exact Option.noConfusion hb (fun hf => Bool.noConfusion hf)

/-! ## The claims -/

/-- Claim C1, counterexample: `rcache.cached_fetch` (the hard-TTL
`fetch_with_cache`) takes no lock, so two concurrent callers for the same
uncached key can both be inside `fetch_fn()` at the same instant (after the
schedule that advances each thread past its fresh-read and budget check),
and the race ends with two upstream calls — not at most one. -/
theorem C1_counterexample_no_single_flight :
    rcInFlight (rcRun (rcEnvOf 0 "d" 90 "ap" "status" [] 3600 259200 (.num 1) (.num 2))
      (rcInit memEmpty) [false, false, false, true, true, true]) = 2 ∧
    (rcRun (rcEnvOf 0 "d" 90 "ap" "status" [] 3600 259200 (.num 1) (.num 2))
      (rcInit memEmpty) [false, false, false, true, true, true, false, false, false,
        false, true, true, true, true]).calls = 2 := by
  constructor <;> decide

/-- Claim C1 (amended): `rcache.cached_fetch` acquires no single-flight
lock, and within one process two concurrent callers for the same uncached
key may each trigger an upstream call (an interleaving reaches two calls in
flight at once).  The per-key single-flight lock exists only in
`cache_ttl.cached_fetch`, where it is held from before the store read
through the fetch and store write, so there at most one upstream call per
key is in flight at any instant, under every schedule. -/
theorem C1_amended_single_flight :
    (∀ (env : CtEnv) (st : RStore) (sched : List Bool),
      ctInFlight (ctRun env (ctInit st) sched) ≤ 1) ∧
    rcInFlight (rcRun (rcEnvOf 0 "d" 90 "ap" "status" [] 3600 259200 (.num 1) (.num 2))
      (rcInit memEmpty) [false, false, false, true, true, true]) = 2 :=
  ⟨fun env st sched => ct_single_flight env st sched, by decide⟩

/-- Claim C2: with the fresh entry absent and the budget check failing
(`count_for_today ≥ soft_cap`), `cached_fetch` never invokes `fetch_fn`,
returns the stale value when the stale read observes one, raises the
budget-exhausted `RuntimeError` when it does not, and leaves every
observable read and the day counter unchanged. -/
theorem C2_budget_exhausted_degrades (now : Int) (day : String) (softCap : Int)
    (pre path : String) (params : List (String × JVal))
    (fetchRes : Except String JVal) (ttl staleTtl : Int) (m : Mem)
    (hfresh : (_get now (_k (pre ++ ":fresh") path params) m).1 = JVal.null)
    (hbud : ¬ countOf m (_day pre day) < softCap) :
    (cached_fetch now day softCap pre path params fetchRes ttl staleTtl m).fetchCalls = 0 ∧
    ((_get now (_k (pre ++ ":stale") path params) m).1 ≠ JVal.null →
      (cached_fetch now day softCap pre path params fetchRes ttl staleTtl m).result =
        .ok (_get now (_k (pre ++ ":stale") path params) m).1) ∧
    ((_get now (_k (pre ++ ":stale") path params) m).1 = JVal.null →
      (cached_fetch now day softCap pre path params fetchRes ttl staleTtl m).result =
        .error "API budget exhausted and no cached data") ∧
    (∀ k, (_get now k
        (cached_fetch now day softCap pre path params fetchRes ttl staleTtl m).mem).1 =
      (_get now k m).1) ∧
    countOf (cached_fetch now day softCap pre path params fetchRes ttl staleTtl m).mem
      (_day pre day) = countOf m (_day pre day) := by
  obtain ⟨h1, h2, h3, h4⟩ :=
    cfExhausted now day softCap pre path params fetchRes ttl staleTtl m hfresh hbud
  refine ⟨h1, ?_, ?_, h3, h4⟩
  · intro hs; rw [h2, if_pos hs]
  · intro hs; rw [h2, if_neg (by simp [hs])]

/-- Claim C2, witness: exhausted budget over `memStale` serves the stale
value without any upstream call. -/
theorem C2_budget_exhausted_degrades_witness :
    ((_get 50 (_k ("p" ++ ":fresh") "x" []) memStale).1 = JVal.null ∧
     ¬ countOf memStale (_day "p" "d") < 90) ∧
    (cached_fetch 50 "d" 90 "p" "x" [] (.ok (.num 9)) 3600 259200 memStale).fetchCalls
      = 0 ∧
    (cached_fetch 50 "d" 90 "p" "x" [] (.ok (.num 9)) 3600 259200 memStale).result =
      .ok (.num 5) := by
  have h := C2_budget_exhausted_degrades 50 "d" 90 "p" "x" [] (.ok (.num 9)) 3600 259200
    memStale (by decide) (by decide)
  exact ⟨⟨by decide, by decide⟩, h.1, by rw [h.2.1 (by decide)]; decide⟩

/-- Claim C3: on a miss with the budget check passing and `fetch_fn`
returning `v`, `cached_fetch` returns `v`, calls `fetch_fn` once, stores `v`
under the fresh key expiring at `now + ttl`, under the stale key expiring at
`now + stale_ttl`, and bumps the provider's day counter by exactly 1
(positive TTLs; a zero TTL would store without expiry). -/
theorem C3_miss_fetch_store_count (now : Int) (day : String) (softCap : Int)
    (pre path : String) (params : List (String × JVal)) (v : JVal)
    (ttl staleTtl : Int) (m : Mem)
    (hfresh : (_get now (_k (pre ++ ":fresh") path params) m).1 = JVal.null)
    (hbud : countOf m (_day pre day) < softCap)
    (httl : ttl ≠ 0) (hsttl : staleTtl ≠ 0) :
    (cached_fetch now day softCap pre path params (.ok v) ttl staleTtl m).result = .ok v ∧
    (cached_fetch now day softCap pre path params (.ok v) ttl staleTtl m).fetchCalls = 1 ∧
    (cached_fetch now day softCap pre path params (.ok v) ttl staleTtl m).mem
      (_k (pre ++ ":fresh") path params) = some (some (now + ttl), v) ∧
    (cached_fetch now day softCap pre path params (.ok v) ttl staleTtl m).mem
      (_k (pre ++ ":stale") path params) = some (some (now + staleTtl), v) ∧
    countOf (cached_fetch now day softCap pre path params (.ok v) ttl staleTtl m).mem
      (_day pre day) = countOf m (_day pre day) + 1 := by
  have he := cfMissOk now day softCap pre path params v ttl staleTtl m hfresh hbud
  rw [he]
  refine ⟨rfl, rfl, ?_, ?_, ?_⟩
  · dsimp only
    simp only [count_call]
    rw [setF_ne _ _ _ _ (freshKey_ne_dayKey pre path params day)]
    simp only [_setex]
    rw [setF_ne _ _ _ _ (freshKey_ne_staleKey pre path path params params), setF_self]
    simp [httl]
  · dsimp only
    simp only [count_call]
    rw [setF_ne _ _ _ _ (staleKey_ne_dayKey pre path params day)]
    simp only [_setex]
    rw [setF_self]
    simp [hsttl]
  · dsimp only
    rw [countOf_count_call,
      countOf_setex now _ _ _ _ _ (Ne.symm (staleKey_ne_dayKey pre path params day)),
      countOf_setex now _ _ _ _ _ (Ne.symm (freshKey_ne_dayKey pre path params day)),
      countOf_after_get now _ _ _ (Ne.symm (freshKey_ne_dayKey pre path params day))]

/-- Claim C3, witness: a successful fetch over the empty store populates
both entries and counts one call. -/
theorem C3_miss_fetch_store_count_witness :
    ((_get 50 (_k ("p" ++ ":fresh") "x" []) memEmpty).1 = JVal.null ∧
     countOf memEmpty (_day "p" "d") < 90 ∧ (3600 : Int) ≠ 0 ∧ (259200 : Int) ≠ 0) ∧
    (cached_fetch 50 "d" 90 "p" "x" [] (.ok (.num 9)) 3600 259200 memEmpty).result =
      .ok (.num 9) ∧
    countOf (cached_fetch 50 "d" 90 "p" "x" [] (.ok (.num 9)) 3600 259200 memEmpty).mem
      (_day "p" "d") = countOf memEmpty (_day "p" "d") + 1 := by
  have h := C3_miss_fetch_store_count 50 "d" 90 "p" "x" [] (.num 9) 3600 259200 memEmpty
    (by decide) (by decide) (by decide) (by decide)
  exact ⟨⟨by decide, by decide, by decide, by decide⟩, h.1, h.2.2.2.2⟩

/-- Claim C4: on a miss with the budget check passing, an exception raised
by `fetch_fn` propagates unchanged to the caller, `fetch_fn` having been
invoked once; no fresh or stale entry is written (every observable read is
unchanged) and the day counter is not incremented. -/
theorem C4_fetch_error_propagates_atomically (now : Int) (day : String) (softCap : Int)
    (pre path : String) (params : List (String × JVal)) (e : String)
    (ttl staleTtl : Int) (m : Mem)
    (hfresh : (_get now (_k (pre ++ ":fresh") path params) m).1 = JVal.null)
    (hbud : countOf m (_day pre day) < softCap) :
    (cached_fetch now day softCap pre path params (.error e) ttl staleTtl m).result =
      .error e ∧
    (cached_fetch now day softCap pre path params (.error e) ttl staleTtl m).fetchCalls
      = 1 ∧
    (∀ k, (_get now k
        (cached_fetch now day softCap pre path params (.error e) ttl staleTtl m).mem).1 =
      (_get now k m).1) ∧
    countOf (cached_fetch now day softCap pre path params (.error e) ttl staleTtl m).mem
      (_day pre day) = countOf m (_day pre day) := by
  have he := cfMissErr now day softCap pre path params e ttl staleTtl m hfresh hbud
  rw [he]
  refine ⟨rfl, rfl, ?_, ?_⟩
  · intro k
    exact readV_after_get now _ k m
  · exact countOf_after_get now _ _ m (Ne.symm (freshKey_ne_dayKey pre path params day))

/-- Claim C4, witness: a failing fetch over the empty store raises and
leaves the counter at zero. -/
theorem C4_fetch_error_propagates_atomically_witness :
    ((_get 50 (_k ("p" ++ ":fresh") "x" []) memEmpty).1 = JVal.null ∧
     countOf memEmpty (_day "p" "d") < 90) ∧
    (cached_fetch 50 "d" 90 "p" "x" [] (.error "boom") 3600 259200 memEmpty).result =
      .error "boom" ∧
    countOf (cached_fetch 50 "d" 90 "p" "x" [] (.error "boom") 3600 259200 memEmpty).mem
      (_day "p" "d") = countOf memEmpty (_day "p" "d") := by
  have h := C4_fetch_error_propagates_atomically 50 "d" 90 "p" "x" [] "boom" 3600 259200
    memEmpty (by decide) (by decide)
  exact ⟨⟨by decide, by decide⟩, h.1, h.2.2.2⟩

/-- Claim C5, counterexample: `fetch_swr` does not stamp the current time
into `meta.cached_at` — it stores `fetch_fn`'s result verbatim.  At
`now = 1000`, a fetched payload carrying `cached_at = 5` is stored with
`cached_at` still `5`, not the current timestamp. -/
theorem C5_counterexample_no_timestamp_stamping :
    (stale_while_revalidate 1000 "K" 10 100
      (.ok (.obj [("meta", .obj [("cached_at", .num 5)])])) storeEmpty).store "K" =
      some (1100, .obj [("meta", .obj [("cached_at", .num 5)])]) ∧
    cachedAtOf (.obj [("meta", .obj [("cached_at", .num 5)])]) = some 5 ∧
    (5 : Int) ≠ 1000 := by
  decide

/-- Claim C5 (amended): when the cached value is absent or hard-expired,
`fetch_swr` invokes `fetch_fn` synchronously exactly once, stores its result
verbatim under the key with TTL `hard_ttl` (the producer, not `fetch_swr`,
is responsible for any `meta.cached_at` stamp), returns that result, and
schedules no background refresh; an exception from `fetch_fn` on this path
propagates to the caller with the store untouched. -/
theorem C5_amended_sync_fetch_on_miss_or_hard_expiry (now : Int) (key : String)
    (soft hard : Int) (st : RStore)
    (h : hardExpiredOrMissing now key hard st = true) :
    (∀ v, stale_while_revalidate now key soft hard (.ok v) st =
      ⟨.ok v, cache_set now key hard v st, 1, false⟩) ∧
    (∀ e, stale_while_revalidate now key soft hard (.error e) st =
      ⟨.error e, st, 1, false⟩) := by
  have hs : ∀ fr, stale_while_revalidate now key soft hard fr st =
      swrSync now key hard fr st := by
    intro fr
    dsimp only [hardExpiredOrMissing] at h
    by_cases hc : cache_get now st key = JVal.null
    · exact swr_of_miss now key soft hard fr st hc
    · rw [if_neg hc] at h
      cases hca : cachedAtOf (cache_get now st key) with
      | none => rw [hca] at h; simp at h
      | some ca =>
        rw [hca] at h
        simp at h
        exact swr_of_hard_expired now key soft hard ca fr st hc hca (by omega)
  exact ⟨fun v => by rw [hs]; rfl, fun e => by rw [hs]; rfl⟩

/-- Claim C5 (amended), witness: a hard-expired entry (`cached_at = 90` at
`now = 100000`, `hard_ttl = 3600`) forces a synchronous fetch whose result
is returned and stored. -/
theorem C5_amended_sync_fetch_witness :
    hardExpiredOrMissing 100000 "K" 3600 storeStamped = true ∧
    stale_while_revalidate 100000 "K" 60 3600 (.ok (.num 3)) storeStamped =
      ⟨.ok (.num 3), cache_set 100000 "K" 3600 (.num 3) storeStamped, 1, false⟩ :=
  ⟨by decide,
   (C5_amended_sync_fetch_on_miss_or_hard_expiry 100000 "K" 60 3600 storeStamped
     (by decide)).1 (.num 3)⟩

/-- Claim C6: a cached value within the hard TTL is returned synchronously
exactly as stored (whether or not the soft TTL is exceeded — the background
refresh flag is precisely `soft_ttl ≤ age`), the synchronous part leaves the
store alone and runs no synchronous fetch, and a failing background
revalidation changes nothing and never surfaces. -/
theorem C6_within_hard_ttl_serves_cached (now : Int) (key : String)
    (soft hard ca : Int) (fetchRes : Except String JVal) (st : RStore)
    (hne : cache_get now st key ≠ JVal.null)
    (hca : cachedAtOf (cache_get now st key) = some ca)
    (hage : now - ca ≤ hard) :
    stale_while_revalidate now key soft hard fetchRes st =
      ⟨.ok (cache_get now st key), st, 0, decide (soft ≤ now - ca)⟩ ∧
    (∀ e bgNow,
      runRevalidate bgNow key hard (.error e)
        (stale_while_revalidate now key soft hard fetchRes st) =
      (stale_while_revalidate now key soft hard fetchRes st).store) := by
  have h := swr_fresh_enough now key soft hard ca fetchRes st hne hca hage
  refine ⟨h, fun e bgNow => ?_⟩
  simp [runRevalidate]

/-- Claim C6, witness: at `now = 100` a value stamped `cached_at = 90`
(age 10, `soft_ttl = 5`, `hard_ttl = 3600`) is served as stored with a
background refresh scheduled, and a failing refresh leaves the store as it
was. -/
theorem C6_within_hard_ttl_serves_cached_witness :
    (cache_get 100 storeStamped "K" ≠ JVal.null ∧
     cachedAtOf (cache_get 100 storeStamped "K") = some 90 ∧
     (100 : Int) - 90 ≤ 3600) ∧
    stale_while_revalidate 100 "K" 5 3600 (.error "boom") storeStamped =
      ⟨.ok (cache_get 100 storeStamped "K"), storeStamped, 0, true⟩ ∧
    runRevalidate 500 "K" 3600 (.error "bgboom")
        (stale_while_revalidate 100 "K" 5 3600 (.error "boom") storeStamped) =
      (stale_while_revalidate 100 "K" 5 3600 (.error "boom") storeStamped).store := by
  have h := C6_within_hard_ttl_serves_cached 100 "K" 5 3600 90 (.error "boom")
    storeStamped (by decide) (by decide) (by decide)
  exact ⟨⟨by decide, by decide, by decide⟩, by rw [h.1]; simp, h.2 "bgboom" 500⟩

/-- Claim C7: when the fresh entry is observably present, `cached_fetch`
returns exactly the stored value, invokes `fetch_fn` zero times, and leaves
the store — counter included — literally unchanged. -/
theorem C7_fresh_hit_skips_fetch (now : Int) (day : String) (softCap : Int)
    (pre path : String) (params : List (String × JVal))
    (fetchRes : Except String JVal) (ttl staleTtl : Int) (m : Mem) (v : JVal)
    (hv : (_get now (_k (pre ++ ":fresh") path params) m).1 = v)
    (hnn : v ≠ JVal.null) :
    cached_fetch now day softCap pre path params fetchRes ttl staleTtl m =
      ⟨.ok v, m, 0⟩ := by
  subst hv
  exact cfHit now day softCap pre path params fetchRes ttl staleTtl m hnn

/-- Claim C7, witness: a pre-populated fresh entry is served untouched with
zero upstream calls. -/
theorem C7_fresh_hit_skips_fetch_witness :
    ((_get 50 (_k ("p" ++ ":fresh") "x" []) memFresh).1 = JVal.num 7 ∧
     JVal.num 7 ≠ JVal.null) ∧
    cached_fetch 50 "d" 90 "p" "x" [] (.ok (.num 9)) 3600 259200 memFresh =
      ⟨.ok (.num 7), memFresh, 0⟩ :=
  ⟨⟨by decide, by decide⟩,
   C7_fresh_hit_skips_fetch 50 "d" 90 "p" "x" [] (.ok (.num 9)) 3600 259200
     memFresh (.num 7) (by decide) (by decide)⟩

/-- Claim C8: the key builder is pure and deterministic — two parameter
lists that are permutations of one another (with the unique keys of a dict)
produce the identical key — and every key has the form
`prefix ++ ":" ++ h` with `h` the 32-hex-character (128-bit) MD5 digest of
`path ++ "|" ++ json.dumps(params, sort_keys=True)`. -/
theorem C8_key_builder_deterministic :
    (∀ (pre path : String) (p1 p2 : List (String × JVal)), p1.Perm p2 →
      (p1.map Prod.fst).Nodup → _k pre path p1 = _k pre path p2) ∧
    (∀ (pre path : String) (params : List (String × JVal)),
      _k pre path params =
        pre ++ ":" ++ md5Hex (path ++ "|" ++ dumps (.obj params)) ∧
      (md5Hex (path ++ "|" ++ dumps (.obj params))).length = 32) := by
  refine ⟨?_, fun pre path params => ⟨rfl, md5Hex_length _⟩⟩
  intro pre path p1 p2 hp hnd
  unfold _k
  rw [dumps_obj_eq_of_perm p1 p2 hp hnd]

/-- Claim C8, witness: the same two-parameter mapping supplied in both
orders yields the identical key. -/
theorem C8_key_builder_deterministic_witness :
    (([("b", JVal.num 2), ("a", JVal.num 1)] : List (String × JVal)).Perm
      [("a", JVal.num 1), ("b", JVal.num 2)] ∧
     (([("b", JVal.num 2), ("a", JVal.num 1)] : List (String × JVal)).map
       Prod.fst).Nodup) ∧
    _k "apisports" "status" [("b", .num 2), ("a", .num 1)] =
      _k "apisports" "status" [("a", .num 1), ("b", .num 2)] :=
  ⟨⟨by decide, by decide⟩,
   C8_key_builder_deterministic.1 "apisports" "status" _ _ (by decide) (by decide)⟩

/-- Claim C9: a stored null is indistinguishable from a miss.  After a fetch
that returned JSON `null`, both the fresh and stale entries hold `null`
(with their normal TTLs), yet every subsequent read of either entry — at any
time — observes `None`; a later `cached_fetch` for the same request
therefore re-invokes `fetch_fn` and spends budget again (the counter reaches
the original count plus 2), and under an exhausted budget the stored null is
never served as a stale fallback: the call raises the budget-exhausted
`RuntimeError` instead. -/
theorem C9_stored_null_is_a_miss (now : Int) (day : String) (softCap softCap2 : Int)
    (pre path : String) (params : List (String × JVal)) (v2 : JVal)
    (ttl staleTtl : Int) (m : Mem) (out : CFOut)
    (hout : out = cached_fetch now day softCap pre path params (.ok .null) ttl staleTtl m)
    (hfresh : (_get now (_k (pre ++ ":fresh") path params) m).1 = JVal.null)
    (hbud : countOf m (_day pre day) < softCap)
    (httl : ttl ≠ 0) (hsttl : staleTtl ≠ 0) :
    out.mem (_k (pre ++ ":fresh") path params) = some (some (now + ttl), JVal.null) ∧
    out.mem (_k (pre ++ ":stale") path params) =
      some (some (now + staleTtl), JVal.null) ∧
    (∀ t : Int, (_get t (_k (pre ++ ":fresh") path params) out.mem).1 = JVal.null ∧
      (_get t (_k (pre ++ ":stale") path params) out.mem).1 = JVal.null) ∧
    (countOf out.mem (_day pre day) < softCap →
      (cached_fetch now day softCap pre path params (.ok v2) ttl staleTtl
        out.mem).fetchCalls = 1 ∧
      countOf (cached_fetch now day softCap pre path params (.ok v2) ttl staleTtl
        out.mem).mem (_day pre day) = countOf m (_day pre day) + 2) ∧
    (¬ countOf out.mem (_day pre day) < softCap2 →
      (cached_fetch now day softCap2 pre path params (.ok v2) ttl staleTtl
        out.mem).result = .error "API budget exhausted and no cached data" ∧
      (cached_fetch now day softCap2 pre path params (.ok v2) ttl staleTtl
        out.mem).fetchCalls = 0) := by
  have he := cfMissOk now day softCap pre path params JVal.null ttl staleTtl m hfresh hbud
  rw [he] at hout
  subst hout
  dsimp only
  have h1 : count_call now pre day 1
      (_setex now (_k (pre ++ ":stale") path params) staleTtl JVal.null
        (_setex now (_k (pre ++ ":fresh") path params) ttl JVal.null
          (_get now (_k (pre ++ ":fresh") path params) m).2))
      (_k (pre ++ ":fresh") path params) = some (some (now + ttl), JVal.null) := by
    simp only [count_call]
    rw [setF_ne _ _ _ _ (freshKey_ne_dayKey pre path params day)]
    simp only [_setex]
    rw [setF_ne _ _ _ _ (freshKey_ne_staleKey pre path path params params), setF_self]
    simp [httl]
  have h2 : count_call now pre day 1
      (_setex now (_k (pre ++ ":stale") path params) staleTtl JVal.null
        (_setex now (_k (pre ++ ":fresh") path params) ttl JVal.null
          (_get now (_k (pre ++ ":fresh") path params) m).2))
      (_k (pre ++ ":stale") path params) = some (some (now + staleTtl), JVal.null) := by
    simp only [count_call]
    rw [setF_ne _ _ _ _ (staleKey_ne_dayKey pre path params day)]
    simp only [_setex]
    rw [setF_self]
    simp [hsttl]
  have h3 : countOf (count_call now pre day 1
      (_setex now (_k (pre ++ ":stale") path params) staleTtl JVal.null
        (_setex now (_k (pre ++ ":fresh") path params) ttl JVal.null
          (_get now (_k (pre ++ ":fresh") path params) m).2)))
      (_day pre day) = countOf m (_day pre day) + 1 := by
    rw [countOf_count_call,
      countOf_setex now _ _ _ _ _ (Ne.symm (staleKey_ne_dayKey pre path params day)),
      countOf_setex now _ _ _ _ _ (Ne.symm (freshKey_ne_dayKey pre path params day)),
      countOf_after_get now _ _ _ (Ne.symm (freshKey_ne_dayKey pre path params day))]
  refine ⟨h1, h2,
    fun t => ⟨get_fst_of_null_entry t _ _ _ h1, get_fst_of_null_entry t _ _ _ h2⟩,
    ?_, ?_⟩
  · intro hb
    have hfresh2 := get_fst_of_null_entry now _ _ _ h1
    have he2 := cfMissOk now day softCap pre path params v2 ttl staleTtl _ hfresh2 hb
    rw [he2]
    refine ⟨rfl, ?_⟩
    dsimp only
    rw [countOf_count_call,
      countOf_setex now _ _ _ _ _ (Ne.symm (staleKey_ne_dayKey pre path params day)),
      countOf_setex now _ _ _ _ _ (Ne.symm (freshKey_ne_dayKey pre path params day)),
      countOf_after_get now _ _ _ (Ne.symm (freshKey_ne_dayKey pre path params day)), h3]
    omega
  · intro hb2
    have hfresh2 := get_fst_of_null_entry now _ _ _ h1
    have hstale2 := get_fst_of_null_entry now _ _ _ h2
    obtain ⟨hc1, hc2, _, _⟩ := cfExhausted now day softCap2 pre path params (.ok v2)
      ttl staleTtl _ hfresh2 hb2
    exact ⟨by rw [hc2, if_neg (by simp [hstale2])], hc1⟩

/-- Claim C9, witness: after caching a fetched `null` over the empty store
(count 0 < 90), the fresh entry holds `null`, a second call still fetches
(count reaches 2), and with a zero cap the stored null is not served as
stale — the budget error is raised. -/
theorem C9_stored_null_is_a_miss_witness :
    ((_get 50 (_k ("p" ++ ":fresh") "x" []) memEmpty).1 = JVal.null ∧
     countOf memEmpty (_day "p" "d") < 90) ∧
    (cached_fetch 50 "d" 90 "p" "x" [] (.ok .null) 3600 259200 memEmpty).mem
      (_k ("p" ++ ":fresh") "x" []) = some (some 3650, JVal.null) ∧
    countOf (cached_fetch 50 "d" 90 "p" "x" [] (.ok (.num 6)) 3600 259200
      (cached_fetch 50 "d" 90 "p" "x" [] (.ok .null) 3600 259200 memEmpty).mem).mem
      (_day "p" "d") = countOf memEmpty (_day "p" "d") + 2 ∧
    (cached_fetch 50 "d" 0 "p" "x" [] (.ok (.num 6)) 3600 259200
      (cached_fetch 50 "d" 90 "p" "x" [] (.ok .null) 3600 259200 memEmpty).mem).result =
      .error "API budget exhausted and no cached data" := by
  have h := C9_stored_null_is_a_miss 50 "d" 90 0 "p" "x" [] (.num 6) 3600 259200 memEmpty
    _ rfl (by decide) (by decide) (by decide) (by decide)
  exact ⟨⟨by decide, by decide⟩, h.1, (h.2.2.2.1 (by decide)).2, (h.2.2.2.2 (by decide)).1⟩

/-- Claim C10: a cached value whose `meta.cached_at` is missing (or whose
`meta` is absent) is aged with `cached_at = 0`, so `age = now`; whenever
`now > hard_ttl` it is treated as hard-expired: `fetch_swr` takes the
synchronous path — `fetch_fn` runs once, no background revalidation is
scheduled — instead of serving the value. -/
theorem C10_missing_cached_at_means_expired (now : Int) (key : String)
    (soft hard : Int) (fetchRes : Except String JVal) (st : RStore) (cur : JVal)
    (hcur : cache_get now st key = cur) (hne : cur ≠ JVal.null)
    (hmiss : noCachedAt cur = true) (hhard : hard < now) :
    cachedAtOf cur = some 0 ∧
    stale_while_revalidate now key soft hard fetchRes st =
      swrSync now key hard fetchRes st ∧
    (stale_while_revalidate now key soft hard fetchRes st).syncCalls = 1 ∧
    (stale_while_revalidate now key soft hard fetchRes st).bgScheduled = false := by
  have hca := cachedAtOf_of_noCachedAt cur hmiss
  subst hcur
  have hs := swr_of_hard_expired now key soft hard 0 fetchRes st hne hca (by omega)
  refine ⟨hca, hs, ?_, ?_⟩ <;> rw [hs] <;> cases fetchRes <;> rfl

/-- Claim C10, witness: a payload with no `meta` at `now = 100` with
`hard_ttl = 50` is re-fetched synchronously rather than served, with no
background refresh. -/
theorem C10_missing_cached_at_means_expired_witness :
    (cache_get 100 storeBare "K" = JVal.obj [("d", JVal.num 2)] ∧
     JVal.obj [("d", JVal.num 2)] ≠ JVal.null ∧
     noCachedAt (JVal.obj [("d", JVal.num 2)]) = true ∧ (50 : Int) < 100) ∧
    (stale_while_revalidate 100 "K" 10 50 (.ok (.num 3)) storeBare).syncCalls = 1 ∧
    (stale_while_revalidate 100 "K" 10 50 (.ok (.num 3)) storeBare).bgScheduled = false := by
  have h := C10_missing_cached_at_means_expired 100 "K" 10 50 (.ok (.num 3)) storeBare
    (.obj [("d", .num 2)]) (by decide) (by decide) (by decide) (by decide)
  exact ⟨⟨by decide, by decide, by decide, by decide⟩, h.2.2.1, h.2.2.2⟩
